import Mathlib

/-!
# LeaderboardCard: the leaderboard display adapter

A shallow embedding of `ULeaderboardCard::SetPlayerInfo`
(`Source/DedicatedServers/Private/UI/Portal/Dashboard/LeaderboardCard.cpp`) and of the
members declared in `LeaderboardCard.h`.

The widget holds three `TObjectPtr<UTextBlock>` members.  They are modelled as optional
addresses into a store of text blocks: `none` is `nullptr`, and dereferencing a null or a
dangling pointer has no defined result (`Option.none`).  The three statements of the body
are executed in their source order on that store.

`FText`, `UTextBlock::SetText`, `FText::FromString` and `FText::AsNumber` belong to the
host engine, not to this repository; the definitions that stand for them say so.
-/

/-! ## Host framework: text values and number formatting -/

/-- Modelled from the spec: the host framework's text value `FText` (engine code, not part
of this repository).  Only what a display element shows of it is kept: its display string. -/
structure FText where
  DisplayString : String
deriving DecidableEq, Repr

/-- Modelled from the spec: `FText::FromString` (engine code, not part of this repository),
which "formats `username` as plain text": the display string is the argument, verbatim. -/
def FText.FromString (InString : String) : FText :=
  ⟨InString⟩

/-- Modelled from the spec: the number formatting rules of the culture ("locale") under
which `FText::AsNumber` formats (engine code, not part of this repository): the string put
in front of a negative number, the grouping separator and group sizes, and the ten digit
characters. -/
structure FDecimalNumberFormattingRules where
  NegativePrefixString : String
  GroupingSeparatorCharacter : Char
  PrimaryGroupingSize : Nat
  SecondaryGroupingSize : Nat
  DigitCharacters : Nat → Char

/-- The English culture, the engine's default: ASCII minus sign, comma between groups of
three digits, Latin digits. -/
def CultureEn : FDecimalNumberFormattingRules where
  NegativePrefixString := "-"
  GroupingSeparatorCharacter := ','
  PrimaryGroupingSize := 3
  SecondaryGroupingSize := 3
  DigitCharacters := Nat.digitChar

/-- Decimal digits of `TmpNum`, least significant first, none for zero: the loop
`while (TmpNum != 0) { emit TmpNum % 10; TmpNum /= 10; }`, bounded by `fuel`. -/
def decimalDigitsAux : Nat → Nat → List Nat
  | 0, _ => []
  | fuel + 1, TmpNum =>
    if TmpNum = 0 then [] else (TmpNum % 10) :: decimalDigitsAux fuel (TmpNum / 10)

/-- Decimal digits of `InVal`, least significant first; zero is padded to the one digit that
is always printed.  `InVal + 1` bounds the number of digits of `InVal`. -/
def decimalDigits (InVal : Nat) : List Nat :=
  if InVal = 0 then [0] else decimalDigitsAux (InVal + 1) InVal

/-- Writes the digits (least significant first) with the culture's digit characters and puts
the grouping separator in front of a digit each time `NumUntilNextGroup` has run out; the
counter then restarts at the secondary group size, less the digit being written. -/
def writeGrouped (Rules : FDecimalNumberFormattingRules) : List Nat → Nat → List Char
  | [], _ => []
  | d :: ds, 0 =>
    Rules.GroupingSeparatorCharacter :: Rules.DigitCharacters d ::
      writeGrouped Rules ds (Rules.SecondaryGroupingSize - 1)
  | d :: ds, NumUntilNextGroup + 1 =>
    Rules.DigitCharacters d :: writeGrouped Rules ds NumUntilNextGroup

/-- The integral part of a number as the culture writes it: grouped digits, most significant
first. -/
def IntegralToString (Rules : FDecimalNumberFormattingRules) (InVal : Nat) : String :=
  String.mk (writeGrouped Rules (decimalDigits InVal) Rules.PrimaryGroupingSize).reverse

/-- Modelled from the spec: `FText::AsNumber` (engine code, not part of this repository),
which "formats `place` as a localized number": the culture's grouped digits of the magnitude,
behind the culture's negative prefix when the value is negative.  Grouping is the formatter's
default. -/
def FText.AsNumber (Rules : FDecimalNumberFormattingRules) (Val : Int) : FText :=
  if Val < 0 then ⟨Rules.NegativePrefixString ++ IntegralToString Rules Val.natAbs⟩
  else ⟨IntegralToString Rules Val.natAbs⟩

/-! ## Host framework: display elements -/

/-- Modelled from the spec: the host framework's display element `UTextBlock` (engine code,
not part of this repository; the header only forward-declares it): the text it shows, and
`Appearance` for everything else the host framework keeps for the element. -/
structure UTextBlock where
  Text : FText
  Appearance : Nat
deriving DecidableEq, Repr

/-- Modelled from the spec: `UTextBlock::SetText` (engine code, not part of this
repository), which writes the text to the display element and leaves the rest of it alone. -/
def UTextBlock.SetText (Block : UTextBlock) (InText : FText) : UTextBlock :=
  { Block with Text := InText }

/-! ## The widget -/

/-- The members of `ULeaderboardCard` (`LeaderboardCard.h`, lines 23-30): three
`TObjectPtr<UTextBlock>`, each the address of a text block or `none` for `nullptr`. -/
structure ULeaderboardCard where
  TextBlock_Username : Option Nat
  TextBlock_Place : Option Nat
  TextBlock_Wins : Option Nat
deriving DecidableEq, Repr

/-- What a call of `SetPlayerInfo` can read or write: the widget and the store of text blocks
its pointers refer into (`none`: no live text block at that address). -/
structure WidgetState where
  Card : ULeaderboardCard
  Objects : Nat → Option UTextBlock

/-- The call `Ptr->SetText(InText)`: dereferences the pointer and replaces the block at that
address by the block with the new text.  No result for a null or dangling pointer. -/
def derefSetText (Objects : Nat → Option UTextBlock) (Ptr : Option Nat) (InText : FText) :
    Option (Nat → Option UTextBlock) :=
  match Ptr with
  | none => none
  | some Addr =>
    match Objects Addr with
    | none => none
    | some Block => some (Function.update Objects Addr (some (Block.SetText InText)))

/-- `ULeaderboardCard::SetPlayerInfo` (`LeaderboardCard.cpp`, lines 8-13): three `SetText`
calls in source order, under the current culture `Rules`.  The function is `void`: the
result is the state after the call and nothing else. -/
def ULeaderboardCard.SetPlayerInfo (Rules : FDecimalNumberFormattingRules) (s : WidgetState)
    (Username : String) (Place Wins : Int) : Option WidgetState :=
  (derefSetText s.Objects s.Card.TextBlock_Username (FText.FromString Username)).bind
    fun Objects1 =>
  (derefSetText Objects1 s.Card.TextBlock_Place (FText.AsNumber Rules Place)).bind
    fun Objects2 =>
  (derefSetText Objects2 s.Card.TextBlock_Wins (FText.AsNumber Rules Wins)).bind
    fun Objects3 =>
  some { s with Objects := Objects3 }

/-- The text value held by the element a pointer refers to, if there is one. -/
def elementText (s : WidgetState) (Ptr : Option Nat) : Option FText :=
  (Ptr.bind s.Objects).map fun Block => Block.Text

/-- The string shown by the element a pointer refers to, if there is one. -/
def shownText (s : WidgetState) (Ptr : Option Nat) : Option String :=
  (elementText s Ptr).map fun InText => InText.DisplayString

/-- What the three display elements of the widget hold, in member order. -/
def display (s : WidgetState) : Option FText × Option FText × Option FText :=
  (elementText s s.Card.TextBlock_Username, elementText s s.Card.TextBlock_Place,
    elementText s s.Card.TextBlock_Wins)

/-- The widget is bound: each of the three members points to a live text block, and the
three members point to three different elements.  The binding is by name
(`meta = (BindWidget)`) and the three member names differ, so no two members share an
element. -/
def Bound (s : WidgetState) : Prop :=
  (s.Card.TextBlock_Username.bind s.Objects).isSome = true ∧
  (s.Card.TextBlock_Place.bind s.Objects).isSome = true ∧
  (s.Card.TextBlock_Wins.bind s.Objects).isSome = true ∧
  s.Card.TextBlock_Username ≠ s.Card.TextBlock_Place ∧
  s.Card.TextBlock_Username ≠ s.Card.TextBlock_Wins ∧
  s.Card.TextBlock_Place ≠ s.Card.TextBlock_Wins

instance (s : WidgetState) : Decidable (Bound s) := by
  unfold Bound
  infer_instance

/-- The culture writes the ten digits with the Latin digit characters. -/
def UsesLatinDigits (Rules : FDecimalNumberFormattingRules) : Prop :=
  ∀ d, d < 10 → Rules.DigitCharacters d = Nat.digitChar d

instance (Rules : FDecimalNumberFormattingRules) : Decidable (UsesLatinDigits Rules) := by
  unfold UsesLatinDigits
  infer_instance

/-- The three members are attached: none is `nullptr` and each points to a live text block.
Nothing is asked about the three being different elements. -/
def Attached (s : WidgetState) : Prop :=
  (s.Card.TextBlock_Username.bind s.Objects).isSome = true ∧
  (s.Card.TextBlock_Place.bind s.Objects).isSome = true ∧
  (s.Card.TextBlock_Wins.bind s.Objects).isSome = true

instance (s : WidgetState) : Decidable (Attached s) := by
  unfold Attached
  infer_instance

/-- A numeral, most significant digit first, with the grouping separator put in by position:
the separator stands right after each digit whose number of lower digits is `Primary`, or
`Primary` plus a multiple of `Secondary`.  The lowest `Primary` digits form the first group
and every further group has `Secondary` digits. -/
def groupedNumeral (Separator : Char) (Primary Secondary : Nat) : List Char → List Char
  | [] => []
  | ch :: lower =>
    if Primary ≤ lower.length ∧ (lower.length - Primary) % Secondary = 0 then
      ch :: Separator :: groupedNumeral Separator Primary Secondary lower
    else ch :: groupedNumeral Separator Primary Secondary lower

/-- The group counter `k`, read at a digit with `j` lower digits, points at the next position
of a separator: either the first one, at `Primary`, or a later one less than `Secondary`
digits ahead. -/
def CounterAt (Primary Secondary j k : Nat) : Prop :=
  j + k = Primary ∨ (Primary < j + k ∧ (j + k - Primary) % Secondary = 0 ∧ k < Secondary)

/-- An Arabic culture with the Arabic-Indic digits (U+0660 to U+0669), the Arabic thousands
separator (U+066C) between groups of three digits, and the Arabic letter mark (U+061C) with
the hyphen-minus as negative prefix. -/
def CultureAr : FDecimalNumberFormattingRules where
  NegativePrefixString := "\u061C-"
  GroupingSeparatorCharacter := Char.ofNat 0x066C
  PrimaryGroupingSize := 3
  SecondaryGroupingSize := 3
  DigitCharacters := fun d => Char.ofNat (0x0660 + d)

/-- The English rules with the digits grouped in pairs: formatting rules that the type of the
culture admits. -/
def CulturePairs : FDecimalNumberFormattingRules where
  NegativePrefixString := "-"
  GroupingSeparatorCharacter := ','
  PrimaryGroupingSize := 2
  SecondaryGroupingSize := 2
  DigitCharacters := Nat.digitChar

/-- A store with text blocks at the addresses 10, 20 and 30 and one more at 40. -/
def exampleObjects : Nat → Option UTextBlock := fun Addr =>
  if Addr = 10 then some ⟨⟨"Player"⟩, 1⟩
  else if Addr = 20 then some ⟨⟨"#"⟩, 2⟩
  else if Addr = 30 then some ⟨⟨"Wins"⟩, 3⟩
  else if Addr = 40 then some ⟨⟨"Title"⟩, 4⟩
  else none

/-- A bound widget: its members point to the blocks at 10, 20 and 30. -/
def exampleState : WidgetState :=
  ⟨⟨some 10, some 20, some 30⟩, exampleObjects⟩

/-- The same widget after it has shown another player. -/
def exampleStateUsed : WidgetState :=
  ⟨⟨some 10, some 20, some 30⟩, fun Addr =>
    if Addr = 10 then some ⟨⟨"Zed"⟩, 1⟩
    else if Addr = 20 then some ⟨⟨"7"⟩, 2⟩
    else if Addr = 30 then some ⟨⟨"1,024"⟩, 3⟩
    else none⟩

/-! ## Lemmas on the store -/

/-- The explicit state after `SetPlayerInfo` on a bound widget: the three blocks, each with
its new text, written into the store in source order. -/
def stateAfter (Rules : FDecimalNumberFormattingRules) (s : WidgetState) (a b c : Nat)
    (Ba Bb Bc : UTextBlock) (Username : String) (Place Wins : Int) : WidgetState :=
  { s with
    Objects := Function.update (Function.update (Function.update s.Objects
      a (some (Ba.SetText (FText.FromString Username))))
      b (some (Bb.SetText (FText.AsNumber Rules Place))))
      c (some (Bc.SetText (FText.AsNumber Rules Wins))) }

/-- A `SetText` call through a pointer to a live block succeeds and updates that block. -/
theorem derefSetText_live {Objects : Nat → Option UTextBlock} {Addr : Nat} {Block : UTextBlock}
    (h : Objects Addr = some Block) (InText : FText) :
    derefSetText Objects (some Addr) InText =
      some (Function.update Objects Addr (some (Block.SetText InText))) := by
  simp [derefSetText, h]

/-- A bound widget has three distinct addresses with a live block at each. -/
theorem Bound.unpack {s : WidgetState} (h : Bound s) :
    ∃ a b c Ba Bb Bc, s.Card = ⟨some a, some b, some c⟩ ∧ a ≠ b ∧ a ≠ c ∧ b ≠ c ∧
      s.Objects a = some Ba ∧ s.Objects b = some Bb ∧ s.Objects c = some Bc := by
  obtain ⟨Card, Objects⟩ := s
  obtain ⟨pu, pp, pw⟩ := Card
  obtain ⟨h1, h2, h3, h4, h5, h6⟩ := h
  cases pu with
  | none => simp at h1
  | some a =>
    cases pp with
    | none => simp at h2
    | some b =>
      cases pw with
      | none => simp at h3
      | some c =>
        simp only [Option.some_bind, Option.isSome_iff_exists] at h1 h2 h3
        obtain ⟨Ba, hA⟩ := h1
        obtain ⟨Bb, hB⟩ := h2
        obtain ⟨Bc, hC⟩ := h3
        refine ⟨a, b, c, Ba, Bb, Bc, rfl, ?_, ?_, ?_, hA, hB, hC⟩
        · exact fun e => h4 (by simp [e])
        · exact fun e => h5 (by simp [e])
        · exact fun e => h6 (by simp [e])

/-- On a bound widget `SetPlayerInfo` returns, and its result is `stateAfter`. -/
theorem SetPlayerInfo_eq_stateAfter (Rules : FDecimalNumberFormattingRules) {s : WidgetState}
    {a b c : Nat} {Ba Bb Bc : UTextBlock} (hCard : s.Card = ⟨some a, some b, some c⟩)
    (hab : a ≠ b) (hac : a ≠ c) (hbc : b ≠ c)
    (hA : s.Objects a = some Ba) (hB : s.Objects b = some Bb) (hC : s.Objects c = some Bc)
    (Username : String) (Place Wins : Int) :
    ULeaderboardCard.SetPlayerInfo Rules s Username Place Wins =
      some (stateAfter Rules s a b c Ba Bb Bc Username Place Wins) := by
  have h2 : Function.update s.Objects a (some (Ba.SetText (FText.FromString Username))) b
      = some Bb := by
    rw [Function.update_noteq (Ne.symm hab)]; exact hB
  have h3 : Function.update
      (Function.update s.Objects a (some (Ba.SetText (FText.FromString Username))))
      b (some (Bb.SetText (FText.AsNumber Rules Place))) c = some Bc := by
    rw [Function.update_noteq (Ne.symm hbc), Function.update_noteq (Ne.symm hac)]; exact hC
  simp only [ULeaderboardCard.SetPlayerInfo, hCard, derefSetText_live hA, Option.some_bind,
    derefSetText_live h2, derefSetText_live h3, stateAfter]

/-- The three blocks of `stateAfter`, read back. -/
theorem stateAfter_objects (Rules : FDecimalNumberFormattingRules) (s : WidgetState)
    {a b c : Nat} (Ba Bb Bc : UTextBlock) (hab : a ≠ b) (hac : a ≠ c) (hbc : b ≠ c)
    (Username : String) (Place Wins : Int) :
    (stateAfter Rules s a b c Ba Bb Bc Username Place Wins).Objects a
        = some (Ba.SetText (FText.FromString Username)) ∧
    (stateAfter Rules s a b c Ba Bb Bc Username Place Wins).Objects b
        = some (Bb.SetText (FText.AsNumber Rules Place)) ∧
    (stateAfter Rules s a b c Ba Bb Bc Username Place Wins).Objects c
        = some (Bc.SetText (FText.AsNumber Rules Wins)) := by
  refine ⟨?_, ?_, ?_⟩
  · simp [stateAfter, Function.update_noteq hac, Function.update_noteq hab]
  · simp [stateAfter, Function.update_noteq hbc]
  · simp [stateAfter]

/-- What `stateAfter` displays: the three formatted arguments. -/
theorem display_stateAfter (Rules : FDecimalNumberFormattingRules) (s : WidgetState)
    {a b c : Nat} (Ba Bb Bc : UTextBlock) (hCard : s.Card = ⟨some a, some b, some c⟩)
    (hab : a ≠ b) (hac : a ≠ c) (hbc : b ≠ c) (Username : String) (Place Wins : Int) :
    display (stateAfter Rules s a b c Ba Bb Bc Username Place Wins) =
      (some (FText.FromString Username), some (FText.AsNumber Rules Place),
        some (FText.AsNumber Rules Wins)) := by
  obtain ⟨h1, h2, h3⟩ := stateAfter_objects Rules s Ba Bb Bc hab hac hbc Username Place Wins
  have hc : (stateAfter Rules s a b c Ba Bb Bc Username Place Wins).Card
      = ⟨some a, some b, some c⟩ := hCard
  simp [display, elementText, hc, h1, h2, h3, UTextBlock.SetText]

/-- On a bound widget `SetPlayerInfo` returns a state that displays the three formatted
arguments. -/
theorem SetPlayerInfo_display (Rules : FDecimalNumberFormattingRules) {s : WidgetState}
    (h : Bound s) (Username : String) (Place Wins : Int) :
    ∃ t, ULeaderboardCard.SetPlayerInfo Rules s Username Place Wins = some t ∧
      t.Card = s.Card ∧
      display t = (some (FText.FromString Username), some (FText.AsNumber Rules Place),
        some (FText.AsNumber Rules Wins)) := by
  obtain ⟨a, b, c, Ba, Bb, Bc, hCard, hab, hac, hbc, hA, hB, hC⟩ := h.unpack
  exact ⟨_, SetPlayerInfo_eq_stateAfter Rules hCard hab hac hbc hA hB hC Username Place Wins,
    rfl, display_stateAfter Rules s Ba Bb Bc hCard hab hac hbc Username Place Wins⟩

/-- Writing a second time over `stateAfter` gives the `stateAfter` of the second input. -/
theorem stateAfter_stateAfter (Rules : FDecimalNumberFormattingRules) (s : WidgetState)
    (a b c : Nat) (Ba Bb Bc : UTextBlock)
    (uA : String) (pA wA : Int) (uB : String) (pB wB : Int) :
    stateAfter Rules (stateAfter Rules s a b c Ba Bb Bc uA pA wA) a b c
        (Ba.SetText (FText.FromString uA)) (Bb.SetText (FText.AsNumber Rules pA))
        (Bc.SetText (FText.AsNumber Rules wA)) uB pB wB
      = stateAfter Rules s a b c Ba Bb Bc uB pB wB := by
  have hObj : ∀ x, (stateAfter Rules (stateAfter Rules s a b c Ba Bb Bc uA pA wA) a b c
        (Ba.SetText (FText.FromString uA)) (Bb.SetText (FText.AsNumber Rules pA))
        (Bc.SetText (FText.AsNumber Rules wA)) uB pB wB).Objects x
      = (stateAfter Rules s a b c Ba Bb Bc uB pB wB).Objects x := by
    intro x
    simp only [stateAfter, Function.update_apply, UTextBlock.SetText]
    split_ifs <;> rfl
  simp only [stateAfter] at hObj ⊢
  congr 1
  exact funext hObj

/-! ## Lemmas on the number formatting -/

/-- The digit loop writes nothing for zero. -/
theorem decimalDigitsAux_zero (fuel : Nat) : decimalDigitsAux fuel 0 = [] := by
  cases fuel <;> simp [decimalDigitsAux]

/-- Every digit the loop writes is below ten. -/
theorem decimalDigitsAux_lt_ten (fuel : Nat) :
    ∀ n d, d ∈ decimalDigitsAux fuel n → d < 10 := by
  induction fuel with
  | zero => intro n d hd; simp [decimalDigitsAux] at hd
  | succ fuel ih =>
    intro n d hd
    unfold decimalDigitsAux at hd
    split_ifs at hd with h0
    · simp at hd
    · rcases List.mem_cons.mp hd with h | h
      · omega
      · exact ih _ _ h

/-- Every digit of `decimalDigits` is below ten. -/
theorem decimalDigits_lt_ten (n d : Nat) (hd : d ∈ decimalDigits n) : d < 10 := by
  unfold decimalDigits at hd
  split_ifs at hd with h0
  · simp at hd; omega
  · exact decimalDigitsAux_lt_ten _ _ _ hd

/-- A value below `10 ^ k` has at most `k` digits. -/
theorem decimalDigitsAux_length (fuel : Nat) :
    ∀ n k, n < 10 ^ k → (decimalDigitsAux fuel n).length ≤ k := by
  induction fuel with
  | zero => intro n k _; simp [decimalDigitsAux]
  | succ fuel ih =>
    intro n k hk
    unfold decimalDigitsAux
    split_ifs with h0
    · simp
    · cases k with
      | zero => simp at hk; omega
      | succ k =>
        have : n / 10 < 10 ^ k := by
          rw [Nat.div_lt_iff_lt_mul (by decide)]
          rw [pow_succ] at hk
          exact hk
        simpa using ih _ _ this

/-- A value below one thousand has at most three digits. -/
theorem decimalDigits_length_le_three (n : Nat) (hn : n < 1000) :
    (decimalDigits n).length ≤ 3 := by
  unfold decimalDigits
  split_ifs with h0
  · simp
  · exact decimalDigitsAux_length _ _ 3 (by simpa using hn)

/-- With enough fuel the digit loop computes the digits that the core library prints. -/
theorem toDigitsCore_eq_decimalDigitsAux (fuel : Nat) :
    ∀ n ds, 0 < n → n < fuel →
      Nat.toDigitsCore 10 fuel n ds =
        ((decimalDigitsAux fuel n).map Nat.digitChar).reverse ++ ds := by
  induction fuel with
  | zero => intro n ds _ h; omega
  | succ fuel ih =>
    intro n ds hpos hlt
    have hn0 : n ≠ 0 := by omega
    by_cases hq : n / 10 = 0
    · simp [Nat.toDigitsCore, decimalDigitsAux, hn0, hq, decimalDigitsAux_zero]
    · have hq1 : 0 < n / 10 := Nat.pos_of_ne_zero hq
      have hq2 : n / 10 < fuel := by omega
      simp [Nat.toDigitsCore, decimalDigitsAux, hn0, hq, ih (n / 10) _ hq1 hq2]

/-- The digits of `decimalDigits`, in Latin characters and most significant first, are the
plain decimal numeral of the core library. -/
theorem decimalDigits_latin (n : Nat) :
    String.mk ((decimalDigits n).map Nat.digitChar).reverse = Nat.repr n := by
  by_cases h0 : n = 0
  · subst h0; rfl
  · have h := toDigitsCore_eq_decimalDigitsAux (n + 1) n [] (Nat.pos_of_ne_zero h0)
      (Nat.lt_succ_self n)
    simp [decimalDigits, h0, Nat.repr, Nat.toDigits, h, List.asString]

/-- No separator is written while the group counter outlasts the digits. -/
theorem writeGrouped_short (Rules : FDecimalNumberFormattingRules) :
    ∀ (ds : List Nat) (k : Nat), ds.length ≤ k →
      writeGrouped Rules ds k = ds.map Rules.DigitCharacters := by
  intro ds
  induction ds with
  | nil => intro k _; cases k <;> simp [writeGrouped]
  | cons d ds ih =>
    intro k hk
    cases k with
    | zero => simp at hk
    | succ k =>
      simp only [List.length_cons, Nat.add_le_add_iff_right] at hk
      simp [writeGrouped, ih k hk]

/-- Below one thousand, a culture with Latin digits and groups of at least three digits
writes the plain decimal numeral. -/
theorem IntegralToString_small (Rules : FDecimalNumberFormattingRules)
    (hd : UsesLatinDigits Rules) (hg : 3 ≤ Rules.PrimaryGroupingSize) (n : Nat)
    (hn : n < 1000) : IntegralToString Rules n = Nat.repr n := by
  have hlen : (decimalDigits n).length ≤ Rules.PrimaryGroupingSize :=
    le_trans (decimalDigits_length_le_three n hn) hg
  have hmap : (decimalDigits n).map Rules.DigitCharacters
      = (decimalDigits n).map Nat.digitChar :=
    List.map_congr_left fun d hmem => hd d (decimalDigits_lt_ten n d hmem)
  rw [IntegralToString, writeGrouped_short Rules _ _ hlen, hmap, decimalDigits_latin]

/-- The digit loop with its group counter puts the separators where `groupedNumeral` puts
them: read most significant digit first, what the loop writes for the digits `ds` above the
already written `lower` ones is the grouped numeral of those digits. -/
theorem writeGrouped_reverse (Rules : FDecimalNumberFormattingRules)
    (hS : 1 ≤ Rules.SecondaryGroupingSize) :
    ∀ (ds : List Nat) (lower : List Char) (k : Nat),
      CounterAt Rules.PrimaryGroupingSize Rules.SecondaryGroupingSize lower.length k →
      groupedNumeral Rules.GroupingSeparatorCharacter Rules.PrimaryGroupingSize
          Rules.SecondaryGroupingSize ((ds.map Rules.DigitCharacters).reverse ++ lower)
        = (writeGrouped Rules ds k).reverse ++
          groupedNumeral Rules.GroupingSeparatorCharacter Rules.PrimaryGroupingSize
            Rules.SecondaryGroupingSize lower := by
  intro ds
  induction ds with
  | nil => intro lower k _; cases k <;> simp [writeGrouped]
  | cons d ds ih =>
    intro lower k hk
    have happ : ((d :: ds).map Rules.DigitCharacters).reverse ++ lower
        = (ds.map Rules.DigitCharacters).reverse ++ (Rules.DigitCharacters d :: lower) := by
      simp
    rw [happ]
    cases k with
    | zero =>
      have hsep : Rules.PrimaryGroupingSize ≤ lower.length ∧
          (lower.length - Rules.PrimaryGroupingSize) % Rules.SecondaryGroupingSize = 0 := by
        rcases hk with h | ⟨h1, h2, -⟩
        · simp at h; simp [h]
        · simp at h1 h2; exact ⟨h1.le, h2⟩
      have hnext : CounterAt Rules.PrimaryGroupingSize Rules.SecondaryGroupingSize
          (Rules.DigitCharacters d :: lower).length (Rules.SecondaryGroupingSize - 1) := by
        right
        obtain ⟨h1, h2⟩ := hsep
        refine ⟨by simp; omega, ?_, by omega⟩
        have : (Rules.DigitCharacters d :: lower).length + (Rules.SecondaryGroupingSize - 1)
            - Rules.PrimaryGroupingSize
            = (lower.length - Rules.PrimaryGroupingSize) + Rules.SecondaryGroupingSize := by
          simp; omega
        rw [this, Nat.add_mod_right]; exact h2
      rw [ih _ _ hnext]
      simp [writeGrouped, groupedNumeral, hsep]
    | succ k =>
      have hnosep : ¬ (Rules.PrimaryGroupingSize ≤ lower.length ∧
          (lower.length - Rules.PrimaryGroupingSize) % Rules.SecondaryGroupingSize = 0) := by
        rintro ⟨h1, h2⟩
        rcases hk with h | ⟨-, h3, h4⟩
        · omega
        · have : lower.length + (k + 1) - Rules.PrimaryGroupingSize
              = (lower.length - Rules.PrimaryGroupingSize) + (k + 1) := by omega
          rw [this, Nat.add_mod, h2, Nat.zero_add, Nat.mod_mod, Nat.mod_eq_of_lt h4] at h3
          omega
      have hnext : CounterAt Rules.PrimaryGroupingSize Rules.SecondaryGroupingSize
          (Rules.DigitCharacters d :: lower).length k := by
        rcases hk with h | ⟨h1, h2, h3⟩
        · left; simp; omega
        · right
          refine ⟨by simp; omega, ?_, by omega⟩
          have : (Rules.DigitCharacters d :: lower).length + k = lower.length + (k + 1) := by
            simp; omega
          rw [this]; exact h2
      rw [ih _ _ hnext]
      simp [writeGrouped, groupedNumeral, hnosep]

/-- A culture with Latin digits writes the plain decimal numeral with its separator put in at
the positions of `groupedNumeral`. -/
theorem IntegralToString_grouped (Rules : FDecimalNumberFormattingRules)
    (hd : UsesLatinDigits Rules) (hS : 1 ≤ Rules.SecondaryGroupingSize) (n : Nat) :
    IntegralToString Rules n =
      String.mk (groupedNumeral Rules.GroupingSeparatorCharacter Rules.PrimaryGroupingSize
        Rules.SecondaryGroupingSize (Nat.repr n).data) := by
  have hmap : (decimalDigits n).map Rules.DigitCharacters
      = (decimalDigits n).map Nat.digitChar :=
    List.map_congr_left fun d hmem => hd d (decimalDigits_lt_ten n d hmem)
  have hrepr : (Nat.repr n).data = ((decimalDigits n).map Rules.DigitCharacters).reverse := by
    rw [hmap, ← decimalDigits_latin n]
  have h := writeGrouped_reverse Rules hS (decimalDigits n) [] Rules.PrimaryGroupingSize
    (Or.inl (by simp))
  simp only [List.append_nil, groupedNumeral] at h
  rw [IntegralToString, hrepr, h]

/-- What a culture shows for a negative value: its negative prefix and the digits of the
magnitude. -/
theorem AsNumber_negative (Rules : FDecimalNumberFormattingRules) (n : Int) (hn : n < 0) :
    (FText.AsNumber Rules n).DisplayString
      = Rules.NegativePrefixString ++ IntegralToString Rules n.natAbs := by
  simp [FText.AsNumber, hn]

/-- A `SetText` call through a pointer to a live block succeeds; afterwards that block holds
the new text, and the live addresses are the same as before. -/
theorem derefSetText_attached (Objects : Nat → Option UTextBlock) (Addr : Nat) (InText : FText)
    (h : (Objects Addr).isSome = true) :
    ∃ Objects1, derefSetText Objects (some Addr) InText = some Objects1 ∧
      (Objects1 Addr).map UTextBlock.Text = some InText ∧
      ∀ x, (Objects1 x).isSome = (Objects x).isSome := by
  obtain ⟨Block, hB⟩ := Option.isSome_iff_exists.mp h
  refine ⟨_, derefSetText_live hB InText, by simp [UTextBlock.SetText], ?_⟩
  intro x
  by_cases hx : x = Addr
  · subst hx; simp [hB]
  · simp [Function.update_noteq hx]

/-! ## The claims -/

/-- C1: when the three display elements are bound, after `SetPlayerInfo(u, place, wins)` the
username element holds `FText::FromString(u)` and shows `u` verbatim, the place element
holds `FText::AsNumber(place)` and the wins element holds `FText::AsNumber(wins)`. -/
theorem SetPlayerInfo_sets_texts (Rules : FDecimalNumberFormattingRules) (s : WidgetState)
    (Username : String) (Place Wins : Int) (hBound : Bound s) :
    ∃ t, ULeaderboardCard.SetPlayerInfo Rules s Username Place Wins = some t ∧
      elementText t t.Card.TextBlock_Username = some (FText.FromString Username) ∧
      shownText t t.Card.TextBlock_Username = some Username ∧
      elementText t t.Card.TextBlock_Place = some (FText.AsNumber Rules Place) ∧
      elementText t t.Card.TextBlock_Wins = some (FText.AsNumber Rules Wins) := by
  obtain ⟨t, ht, -, hdisp⟩ := SetPlayerInfo_display Rules hBound Username Place Wins
  simp only [display, Prod.mk.injEq] at hdisp
  obtain ⟨h1, h2, h3⟩ := hdisp
  exact ⟨t, ht, h1, by simp [shownText, h1, FText.FromString], h2, h3⟩

/-- Witness of C1 on the example widget under the English culture. -/
theorem SetPlayerInfo_sets_texts_witness :
    Bound exampleState ∧
    ∃ t, ULeaderboardCard.SetPlayerInfo CultureEn exampleState "Nova" 3 128 = some t ∧
      elementText t t.Card.TextBlock_Username = some (FText.FromString "Nova") ∧
      shownText t t.Card.TextBlock_Username = some "Nova" ∧
      elementText t t.Card.TextBlock_Place = some (FText.AsNumber CultureEn 3) ∧
      elementText t t.Card.TextBlock_Wins = some (FText.AsNumber CultureEn 128) :=
  ⟨by decide, SetPlayerInfo_sets_texts CultureEn exampleState "Nova" 3 128 (by decide)⟩

/-- C2: overwrite, last write wins.  On a bound widget, `SetPlayerInfo` with input A and then
with input B ends in exactly the state that `SetPlayerInfo` with B alone ends in; and what is
displayed after the call with B is the same from any bound prior state `r`, whatever that
state showed. -/
theorem SetPlayerInfo_overwrite (Rules : FDecimalNumberFormattingRules) (s r : WidgetState)
    (uA : String) (pA wA : Int) (uB : String) (pB wB : Int)
    (hs : Bound s) (hr : Bound r) :
    ∃ sA sB rB, ULeaderboardCard.SetPlayerInfo Rules s uA pA wA = some sA ∧
      ULeaderboardCard.SetPlayerInfo Rules sA uB pB wB = some sB ∧
      ULeaderboardCard.SetPlayerInfo Rules s uB pB wB = some sB ∧
      ULeaderboardCard.SetPlayerInfo Rules r uB pB wB = some rB ∧
      display rB = display sB := by
  obtain ⟨a, b, c, Ba, Bb, Bc, hCard, hab, hac, hbc, hA, hB, hC⟩ := hs.unpack
  obtain ⟨hA1, hB1, hC1⟩ := stateAfter_objects Rules s Ba Bb Bc hab hac hbc uA pA wA
  obtain ⟨rB, hrB, -, hrdisp⟩ := SetPlayerInfo_display Rules hr uB pB wB
  refine ⟨stateAfter Rules s a b c Ba Bb Bc uA pA wA, stateAfter Rules s a b c Ba Bb Bc uB pB wB,
    rB, SetPlayerInfo_eq_stateAfter Rules hCard hab hac hbc hA hB hC uA pA wA, ?_,
    SetPlayerInfo_eq_stateAfter Rules hCard hab hac hbc hA hB hC uB pB wB, hrB, ?_⟩
  · rw [SetPlayerInfo_eq_stateAfter Rules (s := stateAfter Rules s a b c Ba Bb Bc uA pA wA)
      hCard hab hac hbc hA1 hB1 hC1 uB pB wB, stateAfter_stateAfter]
  · rw [hrdisp, display_stateAfter Rules s Ba Bb Bc hCard hab hac hbc uB pB wB]

/-- Witness of C2: the example widget, fresh and after another player was shown. -/
theorem SetPlayerInfo_overwrite_witness :
    Bound exampleState ∧ Bound exampleStateUsed ∧
    ∃ sA sB rB, ULeaderboardCard.SetPlayerInfo CultureEn exampleState "Zed" 7 1024 = some sA ∧
      ULeaderboardCard.SetPlayerInfo CultureEn sA "Nova" 3 128 = some sB ∧
      ULeaderboardCard.SetPlayerInfo CultureEn exampleState "Nova" 3 128 = some sB ∧
      ULeaderboardCard.SetPlayerInfo CultureEn exampleStateUsed "Nova" 3 128 = some rB ∧
      display rB = display sB :=
  ⟨by decide, by decide,
    SetPlayerInfo_overwrite CultureEn exampleState exampleStateUsed "Zed" 7 1024 "Nova" 3 128
      (by decide) (by decide)⟩

/-- C3: idempotence.  On a bound widget, a second `SetPlayerInfo` with the same input
returns the state the first call returned: nothing displayed changes. -/
theorem SetPlayerInfo_idempotent (Rules : FDecimalNumberFormattingRules) (s : WidgetState)
    (Username : String) (Place Wins : Int) (hBound : Bound s) :
    ∃ t, ULeaderboardCard.SetPlayerInfo Rules s Username Place Wins = some t ∧
      ULeaderboardCard.SetPlayerInfo Rules t Username Place Wins = some t ∧
      display t = (some (FText.FromString Username), some (FText.AsNumber Rules Place),
        some (FText.AsNumber Rules Wins)) := by
  obtain ⟨a, b, c, Ba, Bb, Bc, hCard, hab, hac, hbc, hA, hB, hC⟩ := hBound.unpack
  obtain ⟨hA1, hB1, hC1⟩ :=
    stateAfter_objects Rules s Ba Bb Bc hab hac hbc Username Place Wins
  refine ⟨stateAfter Rules s a b c Ba Bb Bc Username Place Wins,
    SetPlayerInfo_eq_stateAfter Rules hCard hab hac hbc hA hB hC Username Place Wins, ?_,
    display_stateAfter Rules s Ba Bb Bc hCard hab hac hbc Username Place Wins⟩
  rw [SetPlayerInfo_eq_stateAfter Rules
    (s := stateAfter Rules s a b c Ba Bb Bc Username Place Wins)
    hCard hab hac hbc hA1 hB1 hC1 Username Place Wins, stateAfter_stateAfter]

/-- Witness of C3 on the example widget. -/
theorem SetPlayerInfo_idempotent_witness :
    Bound exampleState ∧
    ∃ t, ULeaderboardCard.SetPlayerInfo CultureEn exampleState "Nova" 3 128 = some t ∧
      ULeaderboardCard.SetPlayerInfo CultureEn t "Nova" 3 128 = some t ∧
      display t = (some (FText.FromString "Nova"), some (FText.AsNumber CultureEn 3),
        some (FText.AsNumber CultureEn 128)) :=
  ⟨by decide, SetPlayerInfo_idempotent CultureEn exampleState "Nova" 3 128 (by decide)⟩

/-- C4: every input is accepted.  When the three members are attached (non-null, each
pointing to a live block; they need not differ), then for every string and every two integers
(no range is asked of them) each of the three `SetText` calls succeeds, in source order, each
one leaves the element it writes holding the text of its argument, and `SetPlayerInfo` returns
the state after the third: no argument value leads to a failure or to a skipped write. -/
theorem SetPlayerInfo_accepts_all (Rules : FDecimalNumberFormattingRules) (s : WidgetState)
    (Username : String) (Place Wins : Int) (hAttached : Attached s) :
    ∃ Objects1 Objects2 Objects3,
      derefSetText s.Objects s.Card.TextBlock_Username (FText.FromString Username)
        = some Objects1 ∧
      elementText ⟨s.Card, Objects1⟩ s.Card.TextBlock_Username
        = some (FText.FromString Username) ∧
      derefSetText Objects1 s.Card.TextBlock_Place (FText.AsNumber Rules Place)
        = some Objects2 ∧
      elementText ⟨s.Card, Objects2⟩ s.Card.TextBlock_Place
        = some (FText.AsNumber Rules Place) ∧
      derefSetText Objects2 s.Card.TextBlock_Wins (FText.AsNumber Rules Wins)
        = some Objects3 ∧
      elementText ⟨s.Card, Objects3⟩ s.Card.TextBlock_Wins
        = some (FText.AsNumber Rules Wins) ∧
      ULeaderboardCard.SetPlayerInfo Rules s Username Place Wins
        = some ⟨s.Card, Objects3⟩ := by
  obtain ⟨Card, Objects⟩ := s
  obtain ⟨pu, pp, pw⟩ := Card
  obtain ⟨hu, hp, hw⟩ := hAttached
  cases pu with
  | none => simp at hu
  | some a =>
    cases pp with
    | none => simp at hp
    | some b =>
      cases pw with
      | none => simp at hw
      | some c =>
        simp only [Option.some_bind] at hu hp hw
        obtain ⟨Objects1, h1, t1, l1⟩ :=
          derefSetText_attached Objects a (FText.FromString Username) hu
        obtain ⟨Objects2, h2, t2, l2⟩ :=
          derefSetText_attached Objects1 b (FText.AsNumber Rules Place) (by rw [l1]; exact hp)
        obtain ⟨Objects3, h3, t3, l3⟩ :=
          derefSetText_attached Objects2 c (FText.AsNumber Rules Wins)
            (by rw [l2, l1]; exact hw)
        refine ⟨Objects1, Objects2, Objects3, h1, ?_, h2, ?_, h3, ?_, ?_⟩
        · simpa [elementText] using t1
        · simpa [elementText] using t2
        · simpa [elementText] using t3
        · simp [ULeaderboardCard.SetPlayerInfo, h1, h2, h3]

/-- Witness of C4: the empty name and the two extremes of `int32`, on the example widget. -/
theorem SetPlayerInfo_accepts_all_witness :
    Attached exampleState ∧
    ∃ Objects1 Objects2 Objects3,
      derefSetText exampleState.Objects exampleState.Card.TextBlock_Username
        (FText.FromString "") = some Objects1 ∧
      elementText ⟨exampleState.Card, Objects1⟩
        exampleState.Card.TextBlock_Username = some (FText.FromString "") ∧
      derefSetText Objects1 exampleState.Card.TextBlock_Place
        (FText.AsNumber CultureEn (-2147483648)) = some Objects2 ∧
      elementText ⟨exampleState.Card, Objects2⟩
        exampleState.Card.TextBlock_Place
          = some (FText.AsNumber CultureEn (-2147483648)) ∧
      derefSetText Objects2 exampleState.Card.TextBlock_Wins
        (FText.AsNumber CultureEn 2147483647) = some Objects3 ∧
      elementText ⟨exampleState.Card, Objects3⟩
        exampleState.Card.TextBlock_Wins
          = some (FText.AsNumber CultureEn 2147483647) ∧
      ULeaderboardCard.SetPlayerInfo CultureEn exampleState "" (-2147483648) 2147483647
        = some ⟨exampleState.Card, Objects3⟩ :=
  ⟨by decide,
    SetPlayerInfo_accepts_all CultureEn exampleState "" (-2147483648) 2147483647
      (by decide)⟩

/-- C5: frame.  On a bound widget `SetPlayerInfo` returns a state (and no value) in which the
three members point where they pointed before, every block other than the three bound ones is
what it was, and no block, bound or not, has appeared, disappeared or changed anything but
its text. -/
theorem SetPlayerInfo_frame (Rules : FDecimalNumberFormattingRules) (s : WidgetState)
    (Username : String) (Place Wins : Int) (hBound : Bound s) :
    ∃ t, ULeaderboardCard.SetPlayerInfo Rules s Username Place Wins = some t ∧
      t.Card = s.Card ∧
      (∀ Addr, some Addr ≠ s.Card.TextBlock_Username → some Addr ≠ s.Card.TextBlock_Place →
        some Addr ≠ s.Card.TextBlock_Wins → t.Objects Addr = s.Objects Addr) ∧
      (∀ Addr, (t.Objects Addr).map UTextBlock.Appearance
        = (s.Objects Addr).map UTextBlock.Appearance) := by
  obtain ⟨a, b, c, Ba, Bb, Bc, hCard, hab, hac, hbc, hA, hB, hC⟩ := hBound.unpack
  refine ⟨_, SetPlayerInfo_eq_stateAfter Rules hCard hab hac hbc hA hB hC Username Place Wins,
    rfl, ?_, ?_⟩
  · intro Addr h1 h2 h3
    rw [hCard] at h1 h2 h3
    simp only [ne_eq, Option.some.injEq] at h1 h2 h3
    simp [stateAfter, Function.update_noteq h1, Function.update_noteq h2,
      Function.update_noteq h3]
  · intro Addr
    simp only [stateAfter, Function.update_apply, UTextBlock.SetText]
    split_ifs with h1 h2 h3
    · subst h1; simp [hC]
    · subst h2; simp [hB]
    · subst h3; simp [hA]
    · rfl

/-- Witness of C5 on the example widget, whose store holds a fourth block. -/
theorem SetPlayerInfo_frame_witness :
    Bound exampleState ∧
    ∃ t, ULeaderboardCard.SetPlayerInfo CultureEn exampleState "Nova" 3 128 = some t ∧
      t.Card = exampleState.Card ∧
      (∀ Addr, some Addr ≠ exampleState.Card.TextBlock_Username →
        some Addr ≠ exampleState.Card.TextBlock_Place →
        some Addr ≠ exampleState.Card.TextBlock_Wins →
        t.Objects Addr = exampleState.Objects Addr) ∧
      (∀ Addr, (t.Objects Addr).map UTextBlock.Appearance
        = (exampleState.Objects Addr).map UTextBlock.Appearance) :=
  ⟨by decide, SetPlayerInfo_frame CultureEn exampleState "Nova" 3 128 (by decide)⟩

/-- C6, as stated, fails.  Under the English culture `SetPlayerInfo("Nova", -1000, 128)`
makes the place element show `-1,000`, which is not the minus sign followed by the decimal
digits `1000`; and under the Arabic culture `SetPlayerInfo("Nova", -1, 128)` makes it show the
culture's negative prefix and the Arabic-Indic digit one, which is not `-1`. -/
theorem SetPlayerInfo_negative_not_plain :
    (∃ t, ULeaderboardCard.SetPlayerInfo CultureEn exampleState "Nova" (-1000) 128 = some t ∧
      shownText t t.Card.TextBlock_Place = some "-1,000" ∧
      shownText t t.Card.TextBlock_Place ≠ some ("-" ++ Nat.repr (-1000 : Int).natAbs)) ∧
    (∃ t, ULeaderboardCard.SetPlayerInfo CultureAr exampleState "Nova" (-1) 128 = some t ∧
      shownText t t.Card.TextBlock_Place = some "\u061C-\u0661" ∧
      shownText t t.Card.TextBlock_Place ≠ some ("-" ++ Nat.repr (-1 : Int).natAbs)) :=
  ⟨⟨_, rfl, by decide, by decide⟩, ⟨_, rfl, by decide, by decide⟩⟩

/-- C6, amended: under a culture whose negative prefix is the minus sign, whose digits are the
Latin digits and whose secondary group size `S` is at least one, for every negative `n` passed
as place (and likewise as wins) to `SetPlayerInfo` on a bound widget, the element shows the
minus sign followed by the decimal digits of `|n|` with the culture's grouping separator right
after each digit that has `P`, `P + S`, `P + 2 S`, ... lower digits (`P` the primary group
size); when `3 ≤ P` and `-999 ≤ n` no digit has that many lower digits and the element shows
the minus sign followed by the plain decimal digits of `|n|`. -/
theorem SetPlayerInfo_negative_shown (Rules : FDecimalNumberFormattingRules) (s : WidgetState)
    (Username : String) (n other : Int) (hBound : Bound s) (hn : n < 0)
    (hPrefix : Rules.NegativePrefixString = "-") (hDigits : UsesLatinDigits Rules)
    (hSecondary : 1 ≤ Rules.SecondaryGroupingSize) :
    (∃ t, ULeaderboardCard.SetPlayerInfo Rules s Username n other = some t ∧
      shownText t t.Card.TextBlock_Place
        = some ("-" ++ String.mk (groupedNumeral Rules.GroupingSeparatorCharacter
            Rules.PrimaryGroupingSize Rules.SecondaryGroupingSize (Nat.repr n.natAbs).data)) ∧
      (3 ≤ Rules.PrimaryGroupingSize → -999 ≤ n →
        shownText t t.Card.TextBlock_Place = some ("-" ++ Nat.repr n.natAbs))) ∧
    (∃ t, ULeaderboardCard.SetPlayerInfo Rules s Username other n = some t ∧
      shownText t t.Card.TextBlock_Wins
        = some ("-" ++ String.mk (groupedNumeral Rules.GroupingSeparatorCharacter
            Rules.PrimaryGroupingSize Rules.SecondaryGroupingSize (Nat.repr n.natAbs).data)) ∧
      (3 ≤ Rules.PrimaryGroupingSize → -999 ≤ n →
        shownText t t.Card.TextBlock_Wins = some ("-" ++ Nat.repr n.natAbs))) := by
  have hshown : (FText.AsNumber Rules n).DisplayString
      = "-" ++ IntegralToString Rules n.natAbs := by
    rw [AsNumber_negative Rules n hn, hPrefix]
  have hgrouped := IntegralToString_grouped Rules hDigits hSecondary n.natAbs
  have hsmall : 3 ≤ Rules.PrimaryGroupingSize → -999 ≤ n →
      IntegralToString Rules n.natAbs = Nat.repr n.natAbs :=
    fun hg h => IntegralToString_small Rules hDigits hg _ (by omega)
  refine ⟨?_, ?_⟩
  · obtain ⟨t, ht, -, hdisp⟩ := SetPlayerInfo_display Rules hBound Username n other
    simp only [display, Prod.mk.injEq] at hdisp
    have hp : shownText t t.Card.TextBlock_Place
        = some ("-" ++ IntegralToString Rules n.natAbs) := by
      simp [shownText, hdisp.2.1, hshown]
    exact ⟨t, ht, by rw [hp, hgrouped], fun hg h => by rw [hp, hsmall hg h]⟩
  · obtain ⟨t, ht, -, hdisp⟩ := SetPlayerInfo_display Rules hBound Username other n
    simp only [display, Prod.mk.injEq] at hdisp
    have hw : shownText t t.Card.TextBlock_Wins
        = some ("-" ++ IntegralToString Rules n.natAbs) := by
      simp [shownText, hdisp.2.2, hshown]
    exact ⟨t, ht, by rw [hw, hgrouped], fun hg h => by rw [hw, hsmall hg h]⟩

/-- Witness of the amended C6 under the English culture: `SetPlayerInfo("Nova", -1, 128)`
makes the place element show `-1`, and `SetPlayerInfo("Nova", 128, -1234567)` makes the wins
element show `-1,234,567`. -/
theorem SetPlayerInfo_negative_shown_witness :
    Bound exampleState ∧ (-1 : Int) < 0 ∧ (-1234567 : Int) < 0 ∧
    CultureEn.NegativePrefixString = "-" ∧ UsesLatinDigits CultureEn ∧
    1 ≤ CultureEn.SecondaryGroupingSize ∧
    (∃ t, ULeaderboardCard.SetPlayerInfo CultureEn exampleState "Nova" (-1) 128 = some t ∧
      shownText t t.Card.TextBlock_Place = some "-1") ∧
    (∃ t, ULeaderboardCard.SetPlayerInfo CultureEn exampleState "Nova" 128 (-1234567) = some t ∧
      shownText t t.Card.TextBlock_Wins = some "-1,234,567") := by
  obtain ⟨⟨t1, ht1, -, hsmall⟩, -⟩ :=
    SetPlayerInfo_negative_shown CultureEn exampleState "Nova" (-1) 128 (by decide) (by decide)
      rfl (by decide) (by decide)
  obtain ⟨-, ⟨t2, ht2, hgrouped, -⟩⟩ :=
    SetPlayerInfo_negative_shown CultureEn exampleState "Nova" (-1234567) 128 (by decide)
      (by decide) rfl (by decide) (by decide)
  exact ⟨by decide, by decide, by decide, rfl, by decide, by decide,
    ⟨t1, ht1, hsmall (by decide) (by decide)⟩, ⟨t2, ht2, hgrouped⟩⟩

/-- C7, as stated, fails for some cultures.  Under the Arabic culture
`SetPlayerInfo("Nova", 3, 128)` makes the place and wins elements show the Arabic-Indic
numerals, not `3` and `128`; and under formatting rules that group the digits in pairs the
wins element shows `1,28`, which has a separator. -/
theorem SetPlayerInfo_small_not_plain :
    (∃ t, ULeaderboardCard.SetPlayerInfo CultureAr exampleState "Nova" 3 128 = some t ∧
      shownText t t.Card.TextBlock_Place = some "\u0663" ∧
      shownText t t.Card.TextBlock_Wins = some "\u0661\u0662\u0668" ∧
      shownText t t.Card.TextBlock_Place ≠ some (Nat.repr 3) ∧
      shownText t t.Card.TextBlock_Wins ≠ some (Nat.repr 128)) ∧
    (∃ t, ULeaderboardCard.SetPlayerInfo CulturePairs exampleState "Nova" 3 128 = some t ∧
      shownText t t.Card.TextBlock_Wins = some "1,28" ∧
      shownText t t.Card.TextBlock_Wins ≠ some (Nat.repr 128)) :=
  ⟨⟨_, rfl, by decide, by decide, by decide, by decide⟩, ⟨_, rfl, by decide, by decide⟩⟩

/-- C7, amended: on a bound widget, under a culture that writes the Latin digits and whose
primary group holds at least three digits, for every username and every place and wins from 0
to 999 the username element shows the username and the place and wins elements show the plain
decimal numerals of place and wins, without separator or padding. -/
theorem SetPlayerInfo_small_shown (Rules : FDecimalNumberFormattingRules) (s : WidgetState)
    (Username : String) (Place Wins : Int) (hBound : Bound s)
    (hDigits : UsesLatinDigits Rules) (hGroup : 3 ≤ Rules.PrimaryGroupingSize)
    (hPlace : 0 ≤ Place ∧ Place ≤ 999) (hWins : 0 ≤ Wins ∧ Wins ≤ 999) :
    ∃ t, ULeaderboardCard.SetPlayerInfo Rules s Username Place Wins = some t ∧
      shownText t t.Card.TextBlock_Username = some Username ∧
      shownText t t.Card.TextBlock_Place = some (Nat.repr Place.toNat) ∧
      shownText t t.Card.TextBlock_Wins = some (Nat.repr Wins.toNat) := by
  have hfmt : ∀ v : Int, 0 ≤ v ∧ v ≤ 999 →
      (FText.AsNumber Rules v).DisplayString = Nat.repr v.toNat := by
    intro v hv
    have hnat : v.natAbs = v.toNat := by omega
    have hneg : ¬ v < 0 := by omega
    simp only [FText.AsNumber, hneg, if_false, hnat]
    exact IntegralToString_small Rules hDigits hGroup _ (by omega)
  obtain ⟨t, ht, -, hdisp⟩ := SetPlayerInfo_display Rules hBound Username Place Wins
  simp only [display, Prod.mk.injEq] at hdisp
  refine ⟨t, ht, ?_, ?_, ?_⟩
  · simp [shownText, hdisp.1, FText.FromString]
  · simp [shownText, hdisp.2.1, hfmt Place hPlace]
  · simp [shownText, hdisp.2.2, hfmt Wins hWins]

/-- Witness of the amended C7: the two examples, `SetPlayerInfo("Nova", 3, 128)` showing `Nova`, `3`,
`128` and `SetPlayerInfo("", 0, 0)` showing the empty string, `0`, `0`, under the English
culture. -/
theorem SetPlayerInfo_small_shown_witness :
    Bound exampleState ∧ UsesLatinDigits CultureEn ∧ 3 ≤ CultureEn.PrimaryGroupingSize ∧
    (∃ t, ULeaderboardCard.SetPlayerInfo CultureEn exampleState "Nova" 3 128 = some t ∧
      shownText t t.Card.TextBlock_Username = some "Nova" ∧
      shownText t t.Card.TextBlock_Place = some "3" ∧
      shownText t t.Card.TextBlock_Wins = some "128") ∧
    (∃ t, ULeaderboardCard.SetPlayerInfo CultureEn exampleState "" 0 0 = some t ∧
      shownText t t.Card.TextBlock_Username = some "" ∧
      shownText t t.Card.TextBlock_Place = some "0" ∧
      shownText t t.Card.TextBlock_Wins = some "0") :=
  ⟨by decide, by decide, by decide,
    SetPlayerInfo_small_shown CultureEn exampleState "Nova" 3 128 (by decide) (by decide)
      (by decide) (by decide) (by decide),
    SetPlayerInfo_small_shown CultureEn exampleState "" 0 0 (by decide) (by decide)
      (by decide) (by decide) (by decide)⟩

/-- C8: field independence.  For any two calls of `SetPlayerInfo` on bound widgets (under the
same culture), each element holds a text after each call, and the username elements hold the
same text when the usernames agree, the place elements when the places agree, the wins
elements when the wins agree, whatever the other two arguments and the prior states are. -/
theorem SetPlayerInfo_field_independence (Rules : FDecimalNumberFormattingRules)
    (s1 s2 : WidgetState) (u1 : String) (p1 w1 : Int) (u2 : String) (p2 w2 : Int)
    (h1 : Bound s1) (h2 : Bound s2) :
    ∃ t1 t2, ULeaderboardCard.SetPlayerInfo Rules s1 u1 p1 w1 = some t1 ∧
      ULeaderboardCard.SetPlayerInfo Rules s2 u2 p2 w2 = some t2 ∧
      (elementText t1 t1.Card.TextBlock_Username).isSome = true ∧
      (elementText t1 t1.Card.TextBlock_Place).isSome = true ∧
      (elementText t1 t1.Card.TextBlock_Wins).isSome = true ∧
      (u1 = u2 →
        elementText t1 t1.Card.TextBlock_Username = elementText t2 t2.Card.TextBlock_Username) ∧
      (p1 = p2 →
        elementText t1 t1.Card.TextBlock_Place = elementText t2 t2.Card.TextBlock_Place) ∧
      (w1 = w2 →
        elementText t1 t1.Card.TextBlock_Wins = elementText t2 t2.Card.TextBlock_Wins) := by
  obtain ⟨t1, ht1, -, hd1⟩ := SetPlayerInfo_display Rules h1 u1 p1 w1
  obtain ⟨t2, ht2, -, hd2⟩ := SetPlayerInfo_display Rules h2 u2 p2 w2
  simp only [display, Prod.mk.injEq] at hd1 hd2
  refine ⟨t1, t2, ht1, ht2, by simp [hd1.1], by simp [hd1.2.1], by simp [hd1.2.2], ?_, ?_, ?_⟩
  · intro h; rw [hd1.1, hd2.1, h]
  · intro h; rw [hd1.2.1, hd2.2.1, h]
  · intro h; rw [hd1.2.2, hd2.2.2, h]

/-- Witness of C8: two calls that agree on the place only, from different prior states. -/
theorem SetPlayerInfo_field_independence_witness :
    Bound exampleState ∧ Bound exampleStateUsed ∧
    ∃ t1 t2, ULeaderboardCard.SetPlayerInfo CultureEn exampleState "Nova" 3 128 = some t1 ∧
      ULeaderboardCard.SetPlayerInfo CultureEn exampleStateUsed "Zed" 3 1024 = some t2 ∧
      elementText t1 t1.Card.TextBlock_Place = elementText t2 t2.Card.TextBlock_Place := by
  obtain ⟨t1, t2, ht1, ht2, -, -, -, -, hp, -⟩ :=
    SetPlayerInfo_field_independence CultureEn exampleState exampleStateUsed
      "Nova" 3 128 "Zed" 3 1024 (by decide) (by decide)
  exact ⟨by decide, by decide, t1, t2, ht1, ht2, hp rfl⟩
